import Mathlib

/-!
Shallow embedding of the terraframe repository (src/terraframe/models.py,
store.py, utils.py, custom_collections.py, __init__.py), together with
theorems settling the specification claims.

Machine-level conventions of the embedding:
* Python dictionaries are insertion-ordered association lists.
* Python exceptions (DuplicateEntityError, NotFoundError,
  AmbiguousResultError, KeyError, IndexError) are modelled by the
  `Except TFError` monad.
* `sortedcontainers.SortedSet` collections are modelled by plain lists
  kept sorted on insertion (bisect semantics), with set membership by the
  models' structural equality (the Python `__eq__` compares the full
  `str()` of the pydantic model, i.e. every field value).
-/

namespace Terraframe

/-- Error taxonomy: store.py raises on duplicate saves, empty lookups and
ambiguous lookups; Python `KeyError` / `IndexError` raised by dictionary
indexing and list indexing are modelled explicitly. -/
inductive TFError where
  | duplicate
  | notFound
  | ambiguous
  | keyError (key : String)
  | indexError
  deriving DecidableEq

/-! ## Entity model (models.py)

Each pydantic model becomes a structure.  The `config` field of
`RemoteStateModel` is a `HashableDict`; no claim depends on nested
mappings inside it, so it is embedded as an insertion-ordered mapping
from strings to strings.  The Python `prefix` field is spelled `prefix_`
because `prefix` is a Lean keyword. -/

/-- models.py `RemoteStateModel` (directive `remote_states`), identity key `name`. -/
structure RemoteStateModel where
  name : String
  backend : String
  config : List (String × String)
  deriving DecidableEq

/-- models.py `ChildModuleVarModel`, identity key `name`. -/
structure ChildModuleVarModel where
  name : String
  type : Option String := none
  description : Option String := none
  deriving DecidableEq

/-- models.py `ChildModuleOutputModel`, identity key `name` (inherited `_key`). -/
structure ChildModuleOutputModel where
  name : String
  remote_state : RemoteStateModel
  deriving DecidableEq

/-- models.py `RemoteStatateInputModel` (sic), identity key `("var", "output")`. -/
structure RemoteStatateInputModel where
  var : ChildModuleVarModel
  output : ChildModuleOutputModel
  deriving DecidableEq

/-- models.py `ChildModuleModel` (directive `child_modules`), identity key `name`. -/
structure ChildModuleModel where
  name : String
  source : String
  child_module_vars : List ChildModuleVarModel
  remote_states_inputs : List RemoteStatateInputModel := []
  deriving DecidableEq

/-- models.py `DeploymentModel` (directive `deployments`), identity key
`("index", "name")`, `_err_on_duplicate = True`.  `remote_state_inputs_dict`
maps a variable name to the pair (remote state name, output name). -/
structure DeploymentModel where
  index : Int
  name : String
  prefix_ : String := ""
  child_modules : List ChildModuleModel
  remote_states : List RemoteStateModel := []
  remote_state_inputs_dict : List (String × String × String) := []
  deriving DecidableEq

/-! Python compares key strings lexicographically on code points; that
order is embedded as the lexicographic order on the strings' character
lists.  Python tuples compare lexicographically, embedded with `Lex`. -/

/-- `TerraFrameBaseModel.key` for `RemoteStateModel`: values of `_key = ("name",)`. -/
def RemoteStateModel.key (m : RemoteStateModel) : List Char := m.name.toList

/-- `TerraFrameBaseModel.key` for `ChildModuleVarModel`. -/
def ChildModuleVarModel.key (m : ChildModuleVarModel) : List Char := m.name.toList

/-- `TerraFrameBaseModel.key` for `ChildModuleOutputModel`. -/
def ChildModuleOutputModel.key (m : ChildModuleOutputModel) : List Char := m.name.toList

/-- `TerraFrameBaseModel.key` for `RemoteStatateInputModel`: the tuple of the
`var` and `output` models, which order themselves by their own identity keys
(lexicographic comparison of the two name strings). -/
def RemoteStatateInputModel.key (m : RemoteStatateInputModel) :
    Lex (List Char × List Char) :=
  toLex (m.var.name.toList, m.output.name.toList)

/-- `TerraFrameBaseModel.key` for `ChildModuleModel`. -/
def ChildModuleModel.key (m : ChildModuleModel) : List Char := m.name.toList

/-- `TerraFrameBaseModel.key` for `DeploymentModel`: values of
`_key = ("index", "name")`, compared lexicographically as a Python tuple. -/
def DeploymentModel.key (m : DeploymentModel) : Lex (Int × List Char) :=
  toLex (m.index, m.name.toList)

/-- `TerraFrameBaseModel.__lt__` (models.py lines 37-38): `self.key <= other.key`
(note the non-strict comparison in the source). -/
def modelLt {α : Type} {κ : Type} [LinearOrder κ] (key : α → κ) (a b : α) : Bool :=
  key a ≤ key b

/-! ## Entity store (store.py, custom_collections.py)

`TFModelsGlobalStore._records` is a `defaultdict(TerraframeSortedSet)`:
one ordered, deduplicated collection per entity class, defaulting to the
empty collection.  `TerraframeSortedSet` is a `SortedSet` keyed by
`model_obj.key`, so its sorted list inserts by `bisect_right` on the key
tuples, while set membership uses the models' `__hash__`/`__eq__`, i.e.
full structural equality.  The operations below are generic in the entity
type `α`, its key projection and its `_err_on_duplicate` flag. -/

/-- Sorted insertion of `TerraframeSortedSet` (`SortedKeyList.add`,
`bisect_right` on keys): the new element goes after all stored elements
whose key is less than or equal to its own key. -/
def insertSorted {α : Type} {κ : Type} [LinearOrder κ] (key : α → κ) (x : α) :
    List α → List α
  | [] => [x]
  | y :: ys => if key x < key y then x :: y :: ys else y :: insertSorted key x ys

/-- Sorted insertion of a plain `SortedSet()` of models (used in
`DeploymentModel.create`): `bisect_right` compares with the models'
`__lt__`, which holds iff `key x ≤ key y`, so the new element goes before
the first stored element `y` with `key x ≤ key y`. -/
def insertModelSorted {α : Type} {κ : Type} [LinearOrder κ] (key : α → κ) (x : α) :
    List α → List α
  | [] => [x]
  | y :: ys => if key x ≤ key y then x :: y :: ys else y :: insertModelSorted key x ys

/-- `SortedSet.add` of a `TerraframeSortedSet`: no-op when a structurally
equal element is already present, sorted insertion otherwise. -/
def savePermissive {α : Type} {κ : Type} [DecidableEq α] [LinearOrder κ]
    (key : α → κ) (records : List α) (obj : α) : List α :=
  if obj ∈ records then records else insertSorted key obj records

/-- `SortedSet.add` of the plain `SortedSet()` used in `DeploymentModel.create`. -/
def ssAdd {α : Type} {κ : Type} [DecidableEq α] [LinearOrder κ]
    (key : α → κ) (records : List α) (obj : α) : List α :=
  if obj ∈ records then records else insertModelSorted key obj records

/-- `TFModelsGlobalStore.save` (store.py lines 33-38): raise the duplicate
error when `obj in self.records[obj.__class__]` (set membership, hence full
structural equality) and the type's `_err_on_duplicate` flag is set,
otherwise `SortedSet.add`. -/
def save {α : Type} {κ : Type} [DecidableEq α] [LinearOrder κ]
    (key : α → κ) (errOnDuplicate : Bool) (records : List α) (obj : α) :
    Except TFError (List α) :=
  if obj ∈ records ∧ errOnDuplicate then .error .duplicate
  else .ok (savePermissive key records obj)

/-- `TFModelsGlobalStore._search` / `filter` with a single search parameter:
the ordered sub-collection of records whose attribute `f` equals `v`
(only the first key/value pair of `search_params` is used by the source). -/
def filterStore {α β : Type} [DecidableEq β] (f : α → β) (v : β)
    (records : List α) : List α :=
  records.filter (fun x => f x = v)

/-- `TFModelsGlobalStore.get` (store.py lines 59-73): NotFoundError on an
empty filter result, AmbiguousResultError on more than one match, else the
single match (`search[0]`). -/
def getStore {α β : Type} [DecidableEq β] (f : α → β) (v : β)
    (records : List α) : Except TFError α :=
  match filterStore f v records with
  | [] => .error .notFound
  | [x] => .ok x
  | _ :: _ :: _ => .error .ambiguous

/-- `TFModelsGlobalStore.get_all` (store.py lines 75-76): `_search` with no
parameters returns the full collection of the class. -/
def getAll {α : Type} (records : List α) : List α := records

/-- The `defaultdict(TerraframeSortedSet)` default: the collection of a
class with no saved entity is the empty sorted set, never an absent value. -/
def initialRecords (α : Type) : List α := []

/-- One `save` call of a run: a failing save raises in Python and leaves
the collection unchanged. -/
def saveStep {α : Type} {κ : Type} [DecidableEq α] [LinearOrder κ]
    (key : α → κ) (errOnDuplicate : Bool) (records : List α) (obj : α) : List α :=
  match save key errOnDuplicate records obj with
  | .ok records' => records'
  | .error _ => records

/-- A sequence of `save` calls against one class's collection, starting
from the defaultdict default. -/
def runSaves {α : Type} {κ : Type} [DecidableEq α] [LinearOrder κ]
    (key : α → κ) (errOnDuplicate : Bool) (objs : List α) : List α :=
  objs.foldl (saveStep key errOnDuplicate) (initialRecords α)

/-! ## Variable extraction (utils.py `get_all_variables_from_module`)

The file is a list of lines.  The Python comprehension
`[line.split(CH)[1].strip() for line in lines if line.startswith("variable")]`
is embedded recursively: for each line starting with `variable`, take the
text between the first pair of double quotes and strip it; a matching line
with no double quote raises `IndexError`. -/

/-- Python `line.startswith("variable")`, over the line's characters. -/
def startsWithVariable (line : String) : Bool :=
  "variable".toList.isPrefixOf line.toList

/-- Python `str.split(sep)` for the one-character separator `sep`. -/
def splitOnChar (sep : Char) : List Char → List (List Char)
  | [] => [[]]
  | c :: cs =>
    match splitOnChar sep cs with
    | [] => [[]]
    | p :: ps => if c = sep then [] :: p :: ps else (c :: p) :: ps

/-- Python `str.strip()`: drop leading and trailing whitespace. -/
def stripChars (l : List Char) : List Char :=
  ((l.dropWhile Char.isWhitespace).reverse.dropWhile Char.isWhitespace).reverse

/-- `line.split(QUOTE)[1].strip()` where `QUOTE` is the double-quote
character: `none` models the `IndexError` of a matching line without any
double quote. -/
def firstQuoted (line : String) : Option String :=
  match splitOnChar (Char.ofNat 34) line.toList with
  | _ :: second :: _ => some (String.mk (stripChars second))
  | _ => none

/-- utils.py `get_all_variables_from_module` (lines 12-31), over the lines
of the module's variables file. -/
def getAllVariablesFromModule (lines : List String) : Except TFError (List String) :=
  match lines with
  | [] => .ok []
  | l :: ls =>
    if startsWithVariable l then
      match firstQuoted l with
      | some v =>
        match getAllVariablesFromModule ls with
        | .ok rest => .ok (v :: rest)
        | .error e => .error e
      | none => .error .indexError
    else getAllVariablesFromModule ls

/-! ## YAML documents and deployment-template expansion
(`Terraframe._expand_deployment_templates`, identical to
utils.py `exapand_terraframe_templates`) -/

/-- A parsed YAML value; mappings are insertion-ordered association lists
with string keys, as produced by `yaml.load`. -/
inductive Yaml where
  | s (v : String)
  | i (v : Int)
  | b (v : Bool)
  | list (items : List Yaml)
  | map (entries : List (String × Yaml))
  | null

/-- Python dictionary read `m[k]`, as an `Option` (callers decide whether
absence is a `KeyError`). -/
def ymGet (m : List (String × Yaml)) (k : String) : Option Yaml :=
  (m.find? (fun e => e.1 == k)).map (fun e => e.2)

/-- Python `m.pop(k, None)`: the removed value (if any) and the remaining
mapping. -/
def ymPop (m : List (String × Yaml)) (k : String) : Option Yaml × List (String × Yaml) :=
  (ymGet m k, m.filter (fun e => e.1 != k))

/-- Python dictionary write `m[k] = v`: replace in place when the key
exists, append otherwise. -/
def ymSet (m : List (String × Yaml)) (k : String) (v : Yaml) : List (String × Yaml) :=
  if m.any (fun e => e.1 == k) then
    m.map (fun e => if e.1 == k then (k, v) else e)
  else m ++ [(k, v)]

/-- Python `m.update(other)`: write every entry of `other` into `m`,
`other` winning on key collision. -/
def ymUpdate (m other : List (String × Yaml)) : List (String × Yaml) :=
  other.foldl (fun acc e => ymSet acc e.1 e.2) m

/-- Python truthiness of a YAML value (`if templates:`, `if template_name:`). -/
def Yaml.truthy : Yaml → Bool
  | .s v => !(v == "")
  | .i v => !(v == 0)
  | .b v => v
  | .list items => !items.isEmpty
  | .map entries => !entries.isEmpty
  | .null => false

/-- One iteration of the loop in `Terraframe._expand_deployment_templates`:
pop `deployment_template` from the deployment mapping and, when the popped
name is truthy, `deployment.update(templates[template_name])`.  A deployment
that is not a mapping, a non-string template name, a non-mapping
`deployment_templates` section and an unknown template name are all Python
runtime errors. -/
def expandOneDeployment (templates : Yaml) (dep : Yaml) : Except TFError Yaml :=
  match dep with
  | .map dm =>
    match ymPop dm "deployment_template" with
    | (some tv, dm') =>
      if tv.truthy then
        match tv with
        | .s tname =>
          match templates with
          | .map tm =>
            match ymGet tm tname with
            | some (.map tmap) => .ok (.map (ymUpdate dm' tmap))
            | some _ => .error (.keyError "template value is not a mapping")
            | none => .error (.keyError tname)
          | _ => .error (.keyError "deployment_templates is not a mapping")
        | _ => .error (.keyError "deployment_template is not a string")
      else .ok (.map dm')
    | (none, dm') => .ok (.map dm')
  | _ => .error (.keyError "deployment entry is not a mapping")

/-- `Terraframe._expand_deployment_templates` (`__init__.py` lines 25-45):
`loaded_dict["deployment_templates"]` raises `KeyError` when the section is
absent; when the section is truthy, every entry of `loaded_dict["deployments"]`
is expanded in place and the `deployment_templates` key is finally popped. -/
def expandDeploymentTemplates (doc : List (String × Yaml)) :
    Except TFError (List (String × Yaml)) :=
  match ymGet doc "deployment_templates" with
  | none => .error (.keyError "deployment_templates")
  | some templates =>
    if templates.truthy then
      match ymGet doc "deployments" with
      | none => .error (.keyError "deployments")
      | some (.list deps) => do
        let deps' ← deps.mapM (expandOneDeployment templates)
        let doc' := ymSet doc "deployments" (.list deps')
        .ok (ymPop doc' "deployment_templates").2
      | some _ => .error (.keyError "deployments is not a list")
    else .ok doc

/-! ## The global store as one record per entity class -/

/-- `TFModelsGlobalStore._records`: one collection per entity class, every
collection starting out empty (`defaultdict(TerraframeSortedSet)`). -/
structure Store where
  remote_states : List RemoteStateModel := []
  child_module_vars : List ChildModuleVarModel := []
  child_module_outputs : List ChildModuleOutputModel := []
  remote_state_inputs : List RemoteStatateInputModel := []
  child_modules : List ChildModuleModel := []
  deployments : List DeploymentModel := []
  deriving DecidableEq

/-- The store of a fresh run: every class maps to the defaultdict default. -/
def emptyStore : Store := {}

/-! ## Wire payloads

`create` receives identifying scalars from the YAML loader, never entity
objects.  An absent key of the payload dictionary is `none` (reading it
raises `KeyError`). -/

/-- One element of a `remote_state_inputs` list in the YAML document. -/
structure RSInputPayload where
  var : String
  output : String
  remote_state : String
  deriving DecidableEq

/-- A `child_modules` directive entry: `name`, `source` and the (possibly
absent) `remote_state_inputs` key. -/
structure ChildModulePayload where
  name : String
  source : String
  remote_state_inputs : Option (List RSInputPayload) := none
  deriving DecidableEq

/-- A child-module reference inside a deployment entry: `name` and the
(possibly absent) `remote_state_inputs` key. -/
structure DepChildModulePayload where
  name : String
  remote_state_inputs : Option (List RSInputPayload) := none
  deriving DecidableEq

/-- A `deployments` entry after the loader assigned its `index`. -/
structure DeploymentPayload where
  index : Int
  name : String
  prefix_ : String := ""
  child_modules : List DepChildModulePayload
  deriving DecidableEq

/-! ## ChildModuleModel.create (models.py lines 211-250) -/

/-- The `_remote_states_inputs` comprehension: for each entry, look up the
variable by name (`ChildModuleVarModel.get`), look up the remote state by
name (`RemoteStateModel.get`), create and save the output model, create and
save the input-binding model, in the source's evaluation order; the bindings
are collected in payload order. -/
def buildRSInputs :
    List RSInputPayload → List RemoteStatateInputModel × Store →
    Except TFError (List RemoteStatateInputModel × Store)
  | [], acc => .ok acc
  | rp :: rps, (rsis, s) =>
    match getStore ChildModuleVarModel.name rp.var s.child_module_vars with
    | .error e => .error e
    | .ok v =>
      match getStore RemoteStateModel.name rp.remote_state s.remote_states with
      | .error e => .error e
      | .ok rs =>
        let o : ChildModuleOutputModel := ⟨rp.output, rs⟩
        let s1 := { s with
            child_module_outputs :=
              savePermissive ChildModuleOutputModel.key s.child_module_outputs o }
        let rsi : RemoteStatateInputModel := ⟨v, o⟩
        let s2 := { s1 with
            remote_state_inputs :=
              savePermissive RemoteStatateInputModel.key s1.remote_state_inputs rsi }
        buildRSInputs rps (rsis ++ [rsi], s2)

/-- The loop creating and saving one `ChildModuleVarModel` per variable
name discovered in the module's variables file, collecting the models in
file order. -/
def createChildModuleVars (acc : List ChildModuleVarModel × Store) (n : String) :
    List ChildModuleVarModel × Store :=
  let m : ChildModuleVarModel := ⟨n, none, none⟩
  (acc.1 ++ [m],
   { acc.2 with
      child_module_vars := savePermissive ChildModuleVarModel.key acc.2.child_module_vars m })

/-- `ChildModuleModel.create` (models.py lines 211-250): discover the
variables from the module's variables file (`lines`); then resolve
`dict_args["remote_state_inputs"]` (`KeyError` when the key is absent) into
input-binding models; finally validate and save the module itself
(`_err_on_duplicate = False` for every class involved, so the saves never
raise). -/
def childModuleCreate (lines : List String) (s0 : Store) (p : ChildModulePayload) :
    Except TFError (ChildModuleModel × Store) :=
  match getAllVariablesFromModule lines with
  | .error e => .error e
  | .ok vars =>
    let (cmvs, s1) := vars.foldl createChildModuleVars ([], s0)
    match p.remote_state_inputs with
    | none => .error (.keyError "remote_state_inputs")
    | some rsiPayloads =>
      match buildRSInputs rsiPayloads ([], s1) with
      | .error e => .error e
      | .ok (rsis, s2) =>
        let m : ChildModuleModel := ⟨p.name, p.source, cmvs, rsis⟩
        .ok (m, { s2 with
          child_modules := savePermissive ChildModuleModel.key s2.child_modules m })

/-! ## DeploymentModel.create (models.py lines 253-315) -/

/-- The inner loop of `DeploymentModel.create`: add to the plain
`SortedSet()` of remote states the `RemoteStateModel.get` result of each
`remote_state_inputs` entry of one referenced child module. -/
def collectRemoteStates (s : Store) :
    List RSInputPayload → List RemoteStateModel →
    Except TFError (List RemoteStateModel)
  | [], acc => .ok acc
  | rp :: rps, acc =>
    match getStore RemoteStateModel.name rp.remote_state s.remote_states with
    | .error e => .error e
    | .ok rs => collectRemoteStates s rps (ssAdd RemoteStateModel.key acc rs)

/-- The outer loop of `DeploymentModel.create`: for each child-module
payload entry, add the `ChildModuleModel.get` result to the `SortedSet()`
of child modules, then walk `cm["remote_state_inputs"]` (`KeyError` when
the key is absent). -/
def collectDeploymentRefs (s : Store) :
    List DepChildModulePayload → List ChildModuleModel → List RemoteStateModel →
    Except TFError (List ChildModuleModel × List RemoteStateModel)
  | [], cms, rss => .ok (cms, rss)
  | p :: ps, cms, rss =>
    match getStore ChildModuleModel.name p.name s.child_modules with
    | .error e => .error e
    | .ok cm =>
      match p.remote_state_inputs with
      | none => .error (.keyError "remote_state_inputs")
      | some rsips =>
        match collectRemoteStates s rsips rss with
        | .error e => .error e
        | .ok rss' => collectDeploymentRefs s ps (ssAdd ChildModuleModel.key cms cm) rss'

/-- Python dictionary write `d[k] = v` for `remote_state_inputs_dict`:
replace in place when the key exists, append otherwise. -/
def dictInsert (d : List (String × String × String)) (k : String) (v : String × String) :
    List (String × String × String) :=
  if d.any (fun e => e.1 == k) then
    d.map (fun e => if e.1 == k then (k, v.1, v.2) else e)
  else d ++ [(k, v.1, v.2)]

/-- `DeploymentModel.remote_state_inputs_dict` assignment for every binding
of one child module, in order (`set_remote_state_inputs_dict` body). -/
def setDictForModule (d : List (String × String × String)) (cm : ChildModuleModel) :
    List (String × String × String) :=
  cm.remote_states_inputs.foldl
    (fun d rsi =>
      dictInsert d rsi.var.name (rsi.output.remote_state.name, rsi.output.name))
    d

/-- `DeploymentModel.set_remote_state_inputs_dict` (models.py lines
309-315): for every child module of the deployment and every one of its
remote-state-input bindings, map the binding's variable name to the pair
(remote state name, output name). -/
def setRemoteStateInputsDict (cms : List ChildModuleModel) :
    List (String × String × String) :=
  cms.foldl setDictForModule []

/-- Lookup in `remote_state_inputs_dict`. -/
def dictLookup (d : List (String × String × String)) (k : String) :
    Option (String × String) :=
  (d.find? (fun e => e.1 == k)).map (fun e => e.2)

/-- `DeploymentModel.create`: collect the referenced child modules and
remote states into order-canonicalized sets, validate and save the new
deployment (`_err_on_duplicate = True`), then immediately call
`set_remote_state_inputs_dict` on it.  The Python call mutates the single
object that was just saved and returned, so both the stored and the
returned deployment carry the populated mapping; the save's duplicate
check ran against the previously stored (already populated) deployments
before the mutation. -/
def deploymentCreate (s : Store) (p : DeploymentPayload) :
    Except TFError (DeploymentModel × Store) :=
  match collectDeploymentRefs s p.child_modules [] [] with
  | .error e => .error e
  | .ok (cms, rss) =>
    let d0 : DeploymentModel := ⟨p.index, p.name, p.prefix_, cms, rss, []⟩
    match save DeploymentModel.key true s.deployments d0 with
    | .error e => .error e
    | .ok deps =>
      let d : DeploymentModel := { d0 with
        remote_state_inputs_dict := setRemoteStateInputsDict cms }
      .ok (d, { s with deployments := deps.map (fun x => if x = d0 then d else x) })

/-! ## Deployment materializer (`Terraframe._create_variables_file`,
`__init__.py` lines 141-155)

The rendered text of one variable through the `variables` Jinja template
is not part of src/ (the template files live outside the sources), so the
renderer is a parameter `render variable prefix`.  The source opens
`variables.tf` in truncating write mode once per child module and writes
each of that module's variables followed by two newlines; the content on
disk after the loop is therefore the content written for the last child
module, and no file is created when the deployment has no child modules
(`none`). -/

/-- The final content of `<deployment dir>/variables.tf` after
`_create_variables_file`, as a function of the renderer. -/
def varsFileContent (render : ChildModuleVarModel → String → String)
    (d : DeploymentModel) : Option String :=
  d.child_modules.foldl
    (fun _ cm =>
      some (String.join (cm.child_module_vars.map (fun v => render v d.prefix_ ++ "\n\n"))))
    none

/-- The content the specification describes: the concatenated renderings of
all child modules' variables, in store order of the child modules. -/
def varsFileContentSpec (render : ChildModuleVarModel → String → String)
    (d : DeploymentModel) : String :=
  String.join (d.child_modules.map (fun cm =>
    String.join (cm.child_module_vars.map (fun v => render v d.prefix_ ++ "\n\n"))))

/-! ## Concrete example data used by the claim theorems, witnesses and
counterexamples (deployment declarations, module variable files and YAML
documents of the §8 scenarios and of the counterexamples) -/

/-- A deployment saved first (index 0, name `net`, empty prefix). -/
def c1dep1 : DeploymentModel := ⟨0, "net", "", [], [], []⟩

/-- A second deployment with the same identity key `(0, "net")` but a
different `prefix` field value. -/
def c1dep2 : DeploymentModel := ⟨0, "net", "x_", [], [], []⟩

/-- A variables file declaring `zone` before `region` (reverse key order). -/
def c2Lines : List String :=
  ["variable \x22zone\x22 \x7b\x7d", "variable \x22region\x22 \x7b\x7d"]

/-- A child-module declaration whose two remote-state-input bindings are
listed in reverse key order (the `zone` binding before the `region` one). -/
def c2Payload : ChildModulePayload :=
  ⟨"m1", "./modules/m1",
   some [⟨"zone", "out-z", "b-rs"⟩, ⟨"region", "out-r", "a-rs"⟩]⟩

/-- A store holding the two remote states the bindings refer to. -/
def c2StoreRS : Store :=
  { remote_states := [⟨"a-rs", "s3", []⟩, ⟨"b-rs", "s3", []⟩] }

def c2ModRun : Except TFError (ChildModuleModel × Store) :=
  childModuleCreate c2Lines c2StoreRS c2Payload

def c2mod : ChildModuleModel :=
  match c2ModRun with
  | .ok r => r.1
  | .error _ => ⟨"", "", [], []⟩

def c2modStore : Store :=
  match c2ModRun with
  | .ok r => r.2
  | .error _ => emptyStore

def c2rs : RemoteStateModel := ⟨"net-rs", "s3", []⟩

def c2var : ChildModuleVarModel := ⟨"cidr", none, none⟩

def c2out : ChildModuleOutputModel := ⟨"vpc_id", c2rs⟩

def c2rsi : RemoteStatateInputModel := ⟨c2var, c2out⟩

def c2cmA : ChildModuleModel := ⟨"vpc", "./modules/vpc", [c2var], [c2rsi]⟩

def c2cmB : ChildModuleModel := ⟨"app", "./modules/app", [], []⟩

/-- A store holding one remote state and two child modules. -/
def c2Store : Store := { remote_states := [c2rs], child_modules := [c2cmB, c2cmA] }

/-- A deployment payload referencing `vpc` before `app` (reverse key order). -/
def c2DepPayload : DeploymentPayload :=
  ⟨0, "net", "net_", [⟨"vpc", some [⟨"cidr", "vpc_id", "net-rs"⟩]⟩, ⟨"app", some []⟩]⟩

def c2Run : Except TFError (DeploymentModel × Store) :=
  deploymentCreate c2Store c2DepPayload

def c2dep : DeploymentModel :=
  match c2Run with
  | .ok r => r.1
  | .error _ => ⟨0, "", "", [], [], []⟩

def c2sAfter : Store :=
  match c2Run with
  | .ok r => r.2
  | .error _ => emptyStore

/-- A concrete renderer standing in for the `variables` Jinja template:
the claim only depends on which variables are rendered, not on the
template's text. -/
def c3render (v : ChildModuleVarModel) (p : String) : String := v.name ++ ":" ++ p

def c3cmA : ChildModuleModel := ⟨"a-mod", "./a", [⟨"alpha", none, none⟩], []⟩

def c3cmB : ChildModuleModel := ⟨"b-mod", "./b", [⟨"beta", none, none⟩], []⟩

/-- A deployment with two child modules, the first declaring variable
`alpha` and the second declaring variable `beta`. -/
def c3dep : DeploymentModel := ⟨0, "net", "net_", [c3cmA, c3cmB], [], []⟩

/-- The §8 scenario's variables file: one `cidr` variable. -/
def c4Lines : List String := ["variable \x22cidr\x22 \x7b\x7d"]

/-- The §8 child-module declaration: only `name` and `source`, no
`remote_state_inputs` key. -/
def c4PayloadMissing : ChildModulePayload := ⟨"vpc", "./modules/vpc", none⟩

/-- The same declaration with an explicitly empty `remote_state_inputs`. -/
def c4PayloadEmpty : ChildModulePayload := ⟨"vpc", "./modules/vpc", some []⟩

/-- A loaded document lacking the optional `deployment_templates` section. -/
def c5DocMissing : List (String × Yaml) :=
  [("deployments", .list [.map [("name", .s "x")]])]

/-- The template body of `deployment_templates: \x7bbase: ...\x7d`. -/
def c5Template : List (String × Yaml) :=
  [("child_modules", .list [.s "vpc"]), ("extra", .s "fromTemplate")]

/-- A document with `deployment_templates: \x7bbase: ...\x7d` and one
deployment entry naming `deployment_template: base` and carrying its own
(colliding) `child_modules` value. -/
def c5DocFull : List (String × Yaml) :=
  [("deployment_templates", .map [("base", .map c5Template)]),
   ("deployments", .list
     [.map [("name", .s "x"), ("deployment_template", .s "base"),
            ("child_modules", .s "own")]])]

/-- The expansion of `c5DocFull`: the entry holds the template's keys
(template values overriding the entry's own `child_modules`), the
`deployment_template` key is gone, and so is the top-level
`deployment_templates` section. -/
def c5Expected : List (String × Yaml) :=
  [("deployments", .list
     [.map [("name", .s "x"), ("child_modules", .list [.s "vpc"]),
            ("extra", .s "fromTemplate")]])]

def c6rsA : RemoteStateModel := ⟨"x", "s3", []⟩

def c6rsB : RemoteStateModel := ⟨"x", "gcs", []⟩

def c6rsY : RemoteStateModel := ⟨"y", "s3", []⟩

/-- A RemoteState collection holding two entities named `x` and one named `y`. -/
def c6Records : List RemoteStateModel := [c6rsA, c6rsB, c6rsY]

def c8rs : RemoteStateModel := ⟨"backbone", "s3", []⟩

def c8var : ChildModuleVarModel := ⟨"cidr", none, none⟩

def c8out : ChildModuleOutputModel := ⟨"vpc_id", c8rs⟩

def c8rsi : RemoteStatateInputModel := ⟨c8var, c8out⟩

def c8cm : ChildModuleModel := ⟨"vpc", "./modules/vpc", [c8var], [c8rsi]⟩

def c8Store : Store := { remote_states := [c8rs], child_modules := [c8cm] }

def c8Payload : DeploymentPayload :=
  ⟨0, "net", "net_", [⟨"vpc", some [⟨"cidr", "vpc_id", "backbone"⟩]⟩]⟩

def c8Run : Except TFError (DeploymentModel × Store) :=
  deploymentCreate c8Store c8Payload

def c8dep : DeploymentModel :=
  match c8Run with
  | .ok r => r.1
  | .error _ => ⟨0, "", "", [], [], []⟩

def c8sAfter : Store :=
  match c8Run with
  | .ok r => r.2
  | .error _ => emptyStore

/-- The claim's example file: `variable` lines for `region` and `zone`
interleaved with a comment, a blank line and a non-`variable` line. -/
def c9Lines : List String :=
  ["# the module variables", "variable \x22region\x22 \x7b\x7d", "",
   "variable \x22zone\x22 \x7b\x7d", "output \x22id\x22 \x7b\x7d"]

def c10v1 : ChildModuleVarModel := ⟨"x", none, none⟩

/-- A second variable with the same identity key `x` but a different
`type` field. -/
def c10v2 : ChildModuleVarModel := ⟨"x", some "string", none⟩

def c10v3 : ChildModuleVarModel := ⟨"y", none, none⟩

/-! ## Helper lemmas about the store primitives -/

theorem mem_insertSorted {α κ : Type} [LinearOrder κ] (key : α → κ) (x a : α) :
    ∀ l : List α, a ∈ insertSorted key x l ↔ a = x ∨ a ∈ l
  | [] => by simp [insertSorted]
  | y :: ys => by
    simp only [insertSorted]
    split
    · simp [List.mem_cons]
    · rw [List.mem_cons, mem_insertSorted key x a ys]
      simp [List.mem_cons]
      tauto

theorem pairwise_insertSorted {α κ : Type} [LinearOrder κ] (key : α → κ) (x : α) :
    ∀ l : List α, l.Pairwise (fun a b => key a ≤ key b) →
      (insertSorted key x l).Pairwise (fun a b => key a ≤ key b)
  | [], _ => by simp [insertSorted]
  | y :: ys, h => by
    rw [List.pairwise_cons] at h
    obtain ⟨hy, hys⟩ := h
    simp only [insertSorted]
    split
    · rename_i hlt
      rw [List.pairwise_cons]
      refine ⟨?_, by rw [List.pairwise_cons]; exact ⟨hy, hys⟩⟩
      intro b hb
      rcases List.mem_cons.mp hb with rfl | hb
      · exact le_of_lt hlt
      · exact le_trans (le_of_lt hlt) (hy b hb)
    · rename_i hnlt
      rw [List.pairwise_cons]
      refine ⟨?_, pairwise_insertSorted key x ys hys⟩
      intro b hb
      rcases (mem_insertSorted key x b ys).mp hb with rfl | hb
      · exact le_of_not_lt hnlt
      · exact hy b hb

theorem pairwise_savePermissive {α κ : Type} [DecidableEq α] [LinearOrder κ]
    (key : α → κ) (records : List α) (obj : α)
    (h : records.Pairwise (fun a b => key a ≤ key b)) :
    (savePermissive key records obj).Pairwise (fun a b => key a ≤ key b) := by
  unfold savePermissive
  split
  · exact h
  · exact pairwise_insertSorted key obj records h

theorem pairwise_saveStep {α κ : Type} [DecidableEq α] [LinearOrder κ]
    (key : α → κ) (errOnDuplicate : Bool) (records : List α) (obj : α)
    (h : records.Pairwise (fun a b => key a ≤ key b)) :
    (saveStep key errOnDuplicate records obj).Pairwise (fun a b => key a ≤ key b) := by
  unfold saveStep save
  by_cases hc : obj ∈ records ∧ errOnDuplicate = true
  · rw [if_pos hc]
    exact h
  · rw [if_neg hc]
    exact pairwise_savePermissive key records obj h

theorem pairwise_foldl_saveStep {α κ : Type} [DecidableEq α] [LinearOrder κ]
    (key : α → κ) (errOnDuplicate : Bool) :
    ∀ (objs : List α) (records : List α),
      records.Pairwise (fun a b => key a ≤ key b) →
      (objs.foldl (saveStep key errOnDuplicate) records).Pairwise
        (fun a b => key a ≤ key b)
  | [], _, h => h
  | o :: os, records, h => by
    rw [List.foldl_cons]
    exact pairwise_foldl_saveStep key errOnDuplicate os _
      (pairwise_saveStep key errOnDuplicate records o h)

theorem mem_insertModelSorted {α κ : Type} [LinearOrder κ] (key : α → κ) (x a : α) :
    ∀ l : List α, a ∈ insertModelSorted key x l ↔ a = x ∨ a ∈ l
  | [] => by simp [insertModelSorted]
  | y :: ys => by
    simp only [insertModelSorted]
    split
    · simp [List.mem_cons]
    · rw [List.mem_cons, mem_insertModelSorted key x a ys]
      simp [List.mem_cons]
      tauto

theorem pairwise_lt_insertModelSorted {α κ : Type} [LinearOrder κ] (key : α → κ) (x : α) :
    ∀ l : List α, l.Pairwise (fun a b => key a < key b) →
      (∀ y ∈ l, key y ≠ key x) →
      (insertModelSorted key x l).Pairwise (fun a b => key a < key b)
  | [], _, _ => by simp [insertModelSorted]
  | y :: ys, h, hfresh => by
    rw [List.pairwise_cons] at h
    obtain ⟨hy, hys⟩ := h
    simp only [insertModelSorted]
    split
    · rename_i hle
      have hxy : key x < key y :=
        lt_of_le_of_ne hle (fun e => hfresh y (List.mem_cons_self y ys) e.symm)
      rw [List.pairwise_cons]
      refine ⟨?_, by rw [List.pairwise_cons]; exact ⟨hy, hys⟩⟩
      intro b hb
      rcases List.mem_cons.mp hb with rfl | hb
      · exact hxy
      · exact lt_trans hxy (hy b hb)
    · rename_i hnle
      rw [List.pairwise_cons]
      refine ⟨?_, pairwise_lt_insertModelSorted key x ys hys
        (fun z hz => hfresh z (List.mem_cons_of_mem y hz))⟩
      intro b hb
      rcases (mem_insertModelSorted key x b ys).mp hb with rfl | hb
      · exact not_le.mp hnle
      · exact hy b hb

theorem mem_ssAdd {α κ : Type} [DecidableEq α] [LinearOrder κ] (key : α → κ)
    (records : List α) (x a : α) (h : a ∈ ssAdd key records x) :
    a = x ∨ a ∈ records := by
  unfold ssAdd at h
  split at h
  · exact Or.inr h
  · exact (mem_insertModelSorted key x a records).mp h

theorem pairwise_lt_ssAdd {α κ : Type} [DecidableEq α] [LinearOrder κ] (key : α → κ)
    (records : List α) (x : α)
    (h : records.Pairwise (fun a b => key a < key b))
    (hu : ∀ y ∈ records, key y = key x → y = x) :
    (ssAdd key records x).Pairwise (fun a b => key a < key b) := by
  unfold ssAdd
  split
  · exact h
  · rename_i hmem
    refine pairwise_lt_insertModelSorted key x records h ?_
    intro y hy e
    exact absurd (hu y hy e ▸ hy) hmem

theorem getStore_ok {α β : Type} [DecidableEq β] (f : α → β) (v : β)
    (records : List α) (x : α) (h : getStore f v records = .ok x) :
    x ∈ records ∧ f x = v := by
  unfold getStore at h
  split at h
  · cases h
  · rename_i y hf
    cases h
    have hx : x ∈ filterStore f v records := by
      rw [hf]
      exact List.mem_singleton.mpr rfl
    unfold filterStore at hx
    rw [List.mem_filter] at hx
    exact ⟨hx.1, by simpa using hx.2⟩
  · cases h

/-! ## Helper lemmas about `remote_state_inputs_dict` -/

theorem dictLookup_cons (e : String × String × String)
    (d : List (String × String × String)) (k : String) :
    dictLookup (e :: d) k = if e.1 == k then some e.2 else dictLookup d k := by
  unfold dictLookup
  rw [List.find?_cons]
  by_cases he : (e.1 == k) = true
  · simp [he]
  · simp [he]

theorem lookup_map_replace (k : String) (v : String × String) :
    ∀ d : List (String × String × String), d.any (fun e => e.1 == k) = true →
      dictLookup (d.map (fun e => if e.1 == k then (k, v.1, v.2) else e)) k = some v
  | [], h => by simp at h
  | e :: es, h => by
    rw [List.map_cons]
    by_cases he : (e.1 == k) = true
    · rw [if_pos he, dictLookup_cons]
      simp
    · rw [if_neg he, dictLookup_cons, if_neg he]
      refine lookup_map_replace k v es ?_
      rw [List.any_cons] at h
      simpa [he] using h

theorem lookup_append_new (k : String) (v : String × String) :
    ∀ d : List (String × String × String), d.any (fun e => e.1 == k) = false →
      dictLookup (d ++ [(k, v.1, v.2)]) k = some v
  | [], _ => by simp [dictLookup]
  | e :: es, h => by
    rw [List.cons_append, dictLookup_cons]
    rw [List.any_cons] at h
    have he : (e.1 == k) = false := by
      rcases Bool.or_eq_false_iff.mp h with ⟨h1, _⟩
      exact h1
    rw [if_neg (by simp [he])]
    refine lookup_append_new k v es ?_
    rcases Bool.or_eq_false_iff.mp h with ⟨_, h2⟩
    exact h2

theorem dictLookup_dictInsert_self (k : String) (v : String × String)
    (d : List (String × String × String)) :
    dictLookup (dictInsert d k v) k = some v := by
  unfold dictInsert
  split
  · rename_i hany
    exact lookup_map_replace k v d hany
  · rename_i hany
    exact lookup_append_new k v d (Bool.eq_false_iff.mpr hany)

theorem lookup_map_replace_other (k k' : String) (hne : k' ≠ k) (v : String × String) :
    ∀ d : List (String × String × String),
      dictLookup (d.map (fun e => if e.1 == k then (k, v.1, v.2) else e)) k' =
        dictLookup d k'
  | [] => rfl
  | e :: es => by
    rw [List.map_cons]
    by_cases he : (e.1 == k) = true
    · rw [if_pos he, dictLookup_cons, dictLookup_cons]
      have hek : e.1 = k := by simpa using he
      have h1 : ¬(((k, v.1, v.2).1 == k') = true) := by
        simp only [beq_iff_eq]
        exact fun e' => hne e'.symm
      have h2 : ¬((e.1 == k') = true) := by
        rw [hek]
        simp only [beq_iff_eq]
        exact fun e' => hne e'.symm
      rw [if_neg h1, if_neg h2]
      exact lookup_map_replace_other k k' hne v es
    · rw [if_neg he, dictLookup_cons, dictLookup_cons]
      by_cases he' : (e.1 == k') = true
      · rw [if_pos he', if_pos he']
      · rw [if_neg he', if_neg he']
        exact lookup_map_replace_other k k' hne v es

theorem lookup_append_other (k k' : String) (hne : k' ≠ k) (v : String × String) :
    ∀ d : List (String × String × String),
      dictLookup (d ++ [(k, v.1, v.2)]) k' = dictLookup d k'
  | [] => by
    rw [List.nil_append, dictLookup_cons]
    rw [if_neg (by simp only [beq_iff_eq]; exact fun e' => hne e'.symm)]
  | e :: es => by
    rw [List.cons_append, dictLookup_cons, dictLookup_cons]
    by_cases he' : (e.1 == k') = true
    · rw [if_pos he', if_pos he']
    · rw [if_neg he', if_neg he']
      exact lookup_append_other k k' hne v es

theorem dictLookup_dictInsert_other (k k' : String) (hne : k' ≠ k)
    (v : String × String) (d : List (String × String × String)) :
    dictLookup (dictInsert d k v) k' = dictLookup d k' := by
  unfold dictInsert
  split
  · exact lookup_map_replace_other k k' hne v d
  · exact lookup_append_other k k' hne v d

theorem foldDict_preserves :
    ∀ (rsis : List RemoteStatateInputModel) (d : List (String × String × String))
      (k : String),
      (dictLookup d k).isSome = true →
      (dictLookup (rsis.foldl (fun d rsi =>
          dictInsert d rsi.var.name (rsi.output.remote_state.name, rsi.output.name)) d)
        k).isSome = true
  | [], _, _, h => h
  | r :: rs, d, k, h => by
    rw [List.foldl_cons]
    refine foldDict_preserves rs _ k ?_
    by_cases hk : k = r.var.name
    · subst hk
      rw [dictLookup_dictInsert_self]
      rfl
    · rw [dictLookup_dictInsert_other r.var.name k hk]
      exact h

theorem foldDict_covers :
    ∀ (rsis : List RemoteStatateInputModel) (d : List (String × String × String))
      (r : RemoteStatateInputModel), r ∈ rsis →
      (dictLookup (rsis.foldl (fun d rsi =>
          dictInsert d rsi.var.name (rsi.output.remote_state.name, rsi.output.name)) d)
        r.var.name).isSome = true
  | r' :: rs, d, r, hr => by
    rw [List.foldl_cons]
    rcases List.mem_cons.mp hr with rfl | hmem
    · refine foldDict_preserves rs _ _ ?_
      rw [dictLookup_dictInsert_self]
      rfl
    · exact foldDict_covers rs _ r hmem

theorem foldDict_sound :
    ∀ (rsis : List RemoteStatateInputModel) (d : List (String × String × String))
      (k : String) (v : String × String),
      dictLookup (rsis.foldl (fun d rsi =>
          dictInsert d rsi.var.name (rsi.output.remote_state.name, rsi.output.name)) d)
        k = some v →
      dictLookup d k = some v ∨
        ∃ r ∈ rsis, r.var.name = k ∧ v = (r.output.remote_state.name, r.output.name)
  | [], _, _, _, h => Or.inl h
  | r :: rs, d, k, v, h => by
    rw [List.foldl_cons] at h
    rcases foldDict_sound rs _ k v h with h' | ⟨r', hr', e1, e2⟩
    · by_cases hk : k = r.var.name
      · subst hk
        rw [dictLookup_dictInsert_self] at h'
        right
        exact ⟨r, List.mem_cons_self r rs, rfl, (Option.some.inj h').symm⟩
      · rw [dictLookup_dictInsert_other r.var.name k hk] at h'
        exact Or.inl h'
    · exact Or.inr ⟨r', List.mem_cons_of_mem r hr', e1, e2⟩

theorem setDict_preserves :
    ∀ (cms : List ChildModuleModel) (d : List (String × String × String)) (k : String),
      (dictLookup d k).isSome = true →
      (dictLookup (cms.foldl setDictForModule d) k).isSome = true
  | [], _, _, h => h
  | cm :: cms, d, k, h => by
    rw [List.foldl_cons]
    exact setDict_preserves cms _ k (foldDict_preserves cm.remote_states_inputs d k h)

theorem setDict_covers :
    ∀ (cms : List ChildModuleModel) (d : List (String × String × String))
      (cm : ChildModuleModel), cm ∈ cms →
      ∀ r ∈ cm.remote_states_inputs,
      (dictLookup (cms.foldl setDictForModule d) r.var.name).isSome = true
  | cm' :: cms, d, cm, hcm, r, hr => by
    rw [List.foldl_cons]
    rcases List.mem_cons.mp hcm with rfl | hmem
    · exact setDict_preserves cms _ r.var.name
        (foldDict_covers cm.remote_states_inputs d r hr)
    · exact setDict_covers cms _ cm hmem r hr

theorem setDict_sound :
    ∀ (cms : List ChildModuleModel) (d : List (String × String × String))
      (k : String) (v : String × String),
      dictLookup (cms.foldl setDictForModule d) k = some v →
      dictLookup d k = some v ∨
        ∃ cm ∈ cms, ∃ r ∈ cm.remote_states_inputs,
          r.var.name = k ∧ v = (r.output.remote_state.name, r.output.name)
  | [], _, _, _, h => Or.inl h
  | cm :: cms, d, k, v, h => by
    rw [List.foldl_cons] at h
    rcases setDict_sound cms _ k v h with h' | ⟨cm', hcm', r', hr', e1, e2⟩
    · rcases foldDict_sound cm.remote_states_inputs d k v h' with h'' | ⟨r, hr, e1, e2⟩
      · exact Or.inl h''
      · exact Or.inr ⟨cm, List.mem_cons_self cm cms, r, hr, e1, e2⟩
    · exact Or.inr ⟨cm', List.mem_cons_of_mem cm hcm', r', hr', e1, e2⟩

/-! ## Helper lemmas about the `create` constructors -/

theorem collectRemoteStates_inv (s : Store) :
    ∀ (rps : List RSInputPayload) (acc out : List RemoteStateModel),
      collectRemoteStates s rps acc = .ok out →
      acc.Pairwise (fun a b => RemoteStateModel.key a < RemoteStateModel.key b) →
      (∀ y ∈ acc, getStore RemoteStateModel.name y.name s.remote_states = .ok y) →
      out.Pairwise (fun a b => RemoteStateModel.key a < RemoteStateModel.key b) ∧
      (∀ y ∈ out, getStore RemoteStateModel.name y.name s.remote_states = .ok y)
  | [], acc, out, h, hp, hg => by
    cases h
    exact ⟨hp, hg⟩
  | rp :: rps, acc, out, h, hp, hg => by
    simp only [collectRemoteStates] at h
    cases hgs : getStore RemoteStateModel.name rp.remote_state s.remote_states with
    | error e =>
      rw [hgs] at h
      cases h
    | ok rs =>
      rw [hgs] at h
      obtain ⟨_, hname⟩ := getStore_ok _ _ _ _ hgs
      have hrs : getStore RemoteStateModel.name rs.name s.remote_states = .ok rs := by
        rw [hname]
        exact hgs
      have hu : ∀ y ∈ acc, RemoteStateModel.key y = RemoteStateModel.key rs → y = rs := by
        intro y hy e
        have hgy := hg y hy
        have heq : y.name = rs.name := by
          have := congrArg String.mk e
          simpa [RemoteStateModel.key] using this
        rw [heq, hrs] at hgy
        exact (Except.ok.inj hgy).symm
      refine collectRemoteStates_inv s rps _ out h
        (pairwise_lt_ssAdd _ acc rs hp hu) ?_
      intro y hy
      rcases mem_ssAdd _ acc rs y hy with rfl | hy'
      · exact hrs
      · exact hg y hy'

theorem collectDeploymentRefs_inv (s : Store) :
    ∀ (ps : List DepChildModulePayload) (cms : List ChildModuleModel)
      (rss : List RemoteStateModel)
      (out : List ChildModuleModel × List RemoteStateModel),
      collectDeploymentRefs s ps cms rss = .ok out →
      cms.Pairwise (fun a b => ChildModuleModel.key a < ChildModuleModel.key b) →
      (∀ y ∈ cms, getStore ChildModuleModel.name y.name s.child_modules = .ok y) →
      rss.Pairwise (fun a b => RemoteStateModel.key a < RemoteStateModel.key b) →
      (∀ y ∈ rss, getStore RemoteStateModel.name y.name s.remote_states = .ok y) →
      out.1.Pairwise (fun a b => ChildModuleModel.key a < ChildModuleModel.key b) ∧
      out.2.Pairwise (fun a b => RemoteStateModel.key a < RemoteStateModel.key b)
  | [], cms, rss, out, h, hcp, hcg, hrp, hrg => by
    cases h
    exact ⟨hcp, hrp⟩
  | p :: ps, cms, rss, out, h, hcp, hcg, hrp, hrg => by
    cases hgs : getStore ChildModuleModel.name p.name s.child_modules with
    | error e =>
      simp only [collectDeploymentRefs, hgs] at h
      cases h
    | ok cm =>
      cases hpi : p.remote_state_inputs with
      | none =>
        simp only [collectDeploymentRefs, hgs, hpi] at h
        cases h
      | some rsips =>
        cases hcr : collectRemoteStates s rsips rss with
        | error e =>
          simp only [collectDeploymentRefs, hgs, hpi, hcr] at h
          cases h
        | ok rss' =>
          simp only [collectDeploymentRefs, hgs, hpi, hcr] at h
          obtain ⟨_, hname⟩ := getStore_ok _ _ _ _ hgs
          have hcm : getStore ChildModuleModel.name cm.name s.child_modules = .ok cm := by
            rw [hname]
            exact hgs
          have hu : ∀ y ∈ cms, ChildModuleModel.key y = ChildModuleModel.key cm → y = cm := by
            intro y hy e
            have hgy := hcg y hy
            have heq : y.name = cm.name := by
              have := congrArg String.mk e
              simpa [ChildModuleModel.key] using this
            rw [heq, hcm] at hgy
            exact (Except.ok.inj hgy).symm
          obtain ⟨hrp', hrg'⟩ := collectRemoteStates_inv s rsips rss rss' hcr hrp hrg
          refine collectDeploymentRefs_inv s ps _ rss' out h
            (pairwise_lt_ssAdd _ cms cm hcp hu) ?_ hrp' hrg'
          intro y hy
          rcases mem_ssAdd _ cms cm y hy with rfl | hy'
          · exact hcm
          · exact hcg y hy'

theorem foldl_createChildModuleVars_fst :
    ∀ (vars : List String) (acc : List ChildModuleVarModel) (s : Store),
      (vars.foldl createChildModuleVars (acc, s)).1 =
        acc ++ vars.map (fun n => ⟨n, none, none⟩)
  | [], acc, s => by simp
  | n :: ns, acc, s => by
    rw [List.foldl_cons]
    rw [show createChildModuleVars (acc, s) n =
      (acc ++ [(⟨n, none, none⟩ : ChildModuleVarModel)],
       (createChildModuleVars (acc, s) n).2) from rfl]
    rw [foldl_createChildModuleVars_fst ns
      (acc ++ [(⟨n, none, none⟩ : ChildModuleVarModel)])
      (createChildModuleVars (acc, s) n).2]
    simp

theorem buildRSInputs_map :
    ∀ (rps : List RSInputPayload) (acc : List RemoteStatateInputModel) (s : Store)
      (out : List RemoteStatateInputModel × Store),
      buildRSInputs rps (acc, s) = .ok out →
      out.1.map (fun rsi =>
          (rsi.var.name, rsi.output.name, rsi.output.remote_state.name)) =
        acc.map (fun rsi =>
          (rsi.var.name, rsi.output.name, rsi.output.remote_state.name)) ++
        rps.map (fun rp => (rp.var, rp.output, rp.remote_state))
  | [], acc, s, out, h => by
    cases h
    simp
  | rp :: rps, acc, s, out, h => by
    cases hv : getStore ChildModuleVarModel.name rp.var s.child_module_vars with
    | error e =>
      simp only [buildRSInputs, hv] at h
      cases h
    | ok v =>
      cases hrs : getStore RemoteStateModel.name rp.remote_state s.remote_states with
      | error e =>
        simp only [buildRSInputs, hv, hrs] at h
        cases h
      | ok rs =>
        simp only [buildRSInputs, hv, hrs] at h
        have hrec := buildRSInputs_map rps _ _ out h
        rw [hrec]
        obtain ⟨_, hv'⟩ := getStore_ok _ _ _ _ hv
        obtain ⟨_, hrs'⟩ := getStore_ok _ _ _ _ hrs
        simp [hv', hrs']

theorem childModuleCreate_ok (lines : List String) (s0 : Store)
    (p : ChildModulePayload) (m : ChildModuleModel) (s' : Store)
    (h : childModuleCreate lines s0 p = .ok (m, s')) :
    ∃ vars rsips, getAllVariablesFromModule lines = .ok vars ∧
      p.remote_state_inputs = some rsips ∧
      m.child_module_vars = vars.map (fun n => ⟨n, none, none⟩) ∧
      m.remote_states_inputs.map
          (fun rsi => (rsi.var.name, rsi.output.name, rsi.output.remote_state.name)) =
        rsips.map (fun rp => (rp.var, rp.output, rp.remote_state)) := by
  cases hv : getAllVariablesFromModule lines with
  | error e =>
    simp only [childModuleCreate, hv] at h
    cases h
  | ok vars =>
    cases hpi : p.remote_state_inputs with
    | none =>
      simp only [childModuleCreate, hv, hpi] at h
      cases h
    | some rsips =>
      cases hf : vars.foldl createChildModuleVars ([], s0) with
      | mk cmvs s1 =>
        cases hb : buildRSInputs rsips ([], s1) with
        | error e =>
          simp only [childModuleCreate, hv, hpi, hf, hb] at h
          cases h
        | ok pr =>
          obtain ⟨rsis, s2⟩ := pr
          simp only [childModuleCreate, hv, hpi, hf, hb] at h
          have hm : m = ⟨p.name, p.source, cmvs, rsis⟩ :=
            (congrArg Prod.fst (Except.ok.inj h)).symm
          refine ⟨vars, rsips, rfl, rfl, ?_, ?_⟩
          · have hc : cmvs = (vars.foldl createChildModuleVars ([], s0)).1 := by
              rw [hf]
            rw [hm]
            show cmvs = _
            rw [hc, foldl_createChildModuleVars_fst vars []]
            simp
          · rw [hm]
            have hmap := buildRSInputs_map rsips [] s1 (rsis, s2) hb
            simpa using hmap

theorem deploymentCreate_ok (s : Store) (p : DeploymentPayload)
    (d : DeploymentModel) (s' : Store)
    (h : deploymentCreate s p = .ok (d, s')) :
    ∃ cms rss, collectDeploymentRefs s p.child_modules [] [] = .ok (cms, rss) ∧
      d = ⟨p.index, p.name, p.prefix_, cms, rss, setRemoteStateInputsDict cms⟩ := by
  cases hc : collectDeploymentRefs s p.child_modules [] [] with
  | error e =>
    simp only [deploymentCreate, hc] at h
    cases h
  | ok pr =>
    obtain ⟨cms, rss⟩ := pr
    refine ⟨cms, rss, rfl, ?_⟩
    cases hs : save DeploymentModel.key true s.deployments
        ⟨p.index, p.name, p.prefix_, cms, rss, []⟩ with
    | error e =>
      simp only [deploymentCreate, hc, hs] at h
      cases h
    | ok deps =>
      simp only [deploymentCreate, hc, hs] at h
      exact (congrArg Prod.fst (Except.ok.inj h)).symm

/-! ## The claims -/

/-- Claim C9 (confirmed): variable extraction returns exactly the
(whitespace-stripped) first quoted substring of every line beginning with
the literal token `variable`, in file order — provided each such line
carries a double quote (a matching line without one is an IndexError). -/
theorem C9_extraction (lines : List String)
    (h : ∀ l ∈ lines, startsWithVariable l = true → (firstQuoted l).isSome = true) :
    getAllVariablesFromModule lines =
      .ok (lines.filterMap (fun l =>
        if startsWithVariable l then firstQuoted l else none)) := by
  induction lines with
  | nil => rfl
  | cons l ls ih =>
    have hls := fun l' hl' hs => h l' (List.mem_cons_of_mem l hl') hs
    by_cases hs : startsWithVariable l = true
    · have hq := h l (List.mem_cons_self l ls) hs
      cases hfq : firstQuoted l with
      | none =>
        rw [hfq] at hq
        cases hq
      | some v =>
        simp [getAllVariablesFromModule, hs, hfq, ih hls, List.filterMap_cons]
    · simp [getAllVariablesFromModule, hs, ih hls, List.filterMap_cons]

/-- Witness for C9: on the claim's file — `variable` lines for `region`
and `zone` interleaved with a comment, a blank line and an `output` line —
extraction yields exactly `["region", "zone"]` in file order. -/
theorem C9_extraction_witness :
    getAllVariablesFromModule c9Lines = .ok ["region", "zone"] := by
  have h := C9_extraction c9Lines (by decide)
  rw [h]
  rfl

/-- Claim C1 counterexample: a second Deployment whose identity key
`(0, "net")` equals that of an already-stored Deployment but whose
`prefix` differs is saved WITHOUT a DuplicateEntityError, although
Deployment is the strict type — `save` checks set membership, which is
full structural equality, not identity-key equality. -/
theorem C1_counterexample :
    DeploymentModel.key c1dep1 = DeploymentModel.key c1dep2 ∧
    c1dep1 ≠ c1dep2 ∧
    save DeploymentModel.key true [c1dep1] c1dep2 = .ok [c1dep1, c1dep2] :=
  ⟨rfl, by decide, rfl⟩

/-- Claim C1 amended: `save` fails with DuplicateEntityError exactly when
a fully (structurally) equal entity is already stored AND the type's
strict-uniqueness flag is set; an entity not yet stored — in particular
one that is identity-key-equal but value-different from a stored one — is
inserted without error for every type, strict or not. -/
theorem C1_save_amended {α κ : Type} [DecidableEq α] [LinearOrder κ] (key : α → κ)
    (errOnDuplicate : Bool) (records : List α) (obj : α) :
    ((∃ e, save key errOnDuplicate records obj = .error e) ↔
      obj ∈ records ∧ errOnDuplicate = true) ∧
    (obj ∉ records →
      save key errOnDuplicate records obj = .ok (insertSorted key obj records)) := by
  constructor
  · constructor
    · rintro ⟨e, he⟩
      by_cases hc : obj ∈ records ∧ errOnDuplicate = true
      · exact hc
      · unfold save at he
        rw [if_neg hc] at he
        cases he
    · intro hc
      refine ⟨.duplicate, ?_⟩
      unfold save
      rw [if_pos hc]
  · intro hmem
    unfold save savePermissive
    rw [if_neg (fun hc => hmem hc.1), if_neg hmem]

/-- Witness for C1 amended: the key-equal, value-different second
deployment is stored without error. -/
theorem C1_save_amended_witness :
    save DeploymentModel.key true [c1dep1] c1dep2 =
      .ok (insertSorted DeploymentModel.key c1dep2 [c1dep1]) :=
  (C1_save_amended DeploymentModel.key true [c1dep1] c1dep2).2 (by decide)

/-- Claim C2 counterexample: a ChildModule created from a variables file
declaring `zone` before `region`, with two remote-state-input bindings
listed in the same reverse key order, keeps `child_module_vars` in file
order and `remote_states_inputs` in payload order — neither collection is
ordered by the referenced entities' identity keys. -/
theorem C2_counterexample :
    c2ModRun.toOption.map
        (fun r => (r.1.child_module_vars.map ChildModuleVarModel.key,
                   r.1.remote_states_inputs.map RemoteStatateInputModel.key)) =
      some ([String.toList "zone", String.toList "region"],
            [toLex (String.toList "zone", String.toList "out-z"),
             toLex (String.toList "region", String.toList "out-r")]) ∧
    ¬ List.Pairwise (fun a b : List Char => a ≤ b)
        [String.toList "zone", String.toList "region"] ∧
    ¬ List.Pairwise (fun a b : Lex (List Char × List Char) => a ≤ b)
        [toLex (String.toList "zone", String.toList "out-z"),
         toLex (String.toList "region", String.toList "out-r")] :=
  ⟨rfl, by decide, by decide⟩

/-- Claim C2 amended: the reference collections of a Deployment produced
by `create` (`child_modules` and `remote_states`) contain no two elements
with equal identity keys and are strictly ordered by the referenced
entities' identity keys, independent of payload order; a ChildModule's
collections are instead kept in source order — `child_module_vars` is
exactly the variables-file order (and `remote_states_inputs` the payload
order), with no reordering or per-key dedup. -/
theorem C2_collections_amended :
    (∀ (s : Store) (p : DeploymentPayload) (d : DeploymentModel) (s' : Store),
      deploymentCreate s p = .ok (d, s') →
      d.child_modules.Pairwise
        (fun a b => ChildModuleModel.key a < ChildModuleModel.key b) ∧
      d.remote_states.Pairwise
        (fun a b => RemoteStateModel.key a < RemoteStateModel.key b)) ∧
    (∀ (lines : List String) (s0 : Store) (p : ChildModulePayload)
      (m : ChildModuleModel) (s' : Store),
      childModuleCreate lines s0 p = .ok (m, s') →
      ∃ vars rsips, getAllVariablesFromModule lines = .ok vars ∧
        p.remote_state_inputs = some rsips ∧
        m.child_module_vars = vars.map (fun n => ⟨n, none, none⟩) ∧
        m.remote_states_inputs.map
            (fun rsi => (rsi.var.name, rsi.output.name, rsi.output.remote_state.name)) =
          rsips.map (fun rp => (rp.var, rp.output, rp.remote_state))) := by
  constructor
  · intro s p d s' h
    obtain ⟨cms, rss, hc, hd⟩ := deploymentCreate_ok s p d s' h
    obtain ⟨h1, h2⟩ := collectDeploymentRefs_inv s p.child_modules [] [] (cms, rss) hc
      List.Pairwise.nil (by intro y hy; cases hy)
      List.Pairwise.nil (by intro y hy; cases hy)
    subst hd
    exact ⟨h1, h2⟩
  · exact childModuleCreate_ok

/-- Witness for C2 amended: the deployment created from a payload listing
`vpc` before `app` holds its child modules (and remote states) strictly
sorted by key, while the child module created from the two non-empty,
reverse-ordered bindings keeps its variables in file order and its
bindings in payload order. -/
theorem C2_collections_amended_witness :
    (c2dep.child_modules.Pairwise
        (fun a b => ChildModuleModel.key a < ChildModuleModel.key b) ∧
      c2dep.remote_states.Pairwise
        (fun a b => RemoteStateModel.key a < RemoteStateModel.key b)) ∧
    (∃ vars rsips, getAllVariablesFromModule c2Lines = .ok vars ∧
      c2Payload.remote_state_inputs = some rsips ∧
      c2mod.child_module_vars = vars.map (fun n => ⟨n, none, none⟩) ∧
      c2mod.remote_states_inputs.map
          (fun rsi => (rsi.var.name, rsi.output.name, rsi.output.remote_state.name)) =
        rsips.map (fun rp => (rp.var, rp.output, rp.remote_state))) :=
  ⟨C2_collections_amended.1 c2Store c2DepPayload c2dep c2sAfter rfl,
   C2_collections_amended.2 c2Lines c2StoreRS c2Payload c2mod c2modStore rfl⟩

/-- Claim C3 (code bug): for a deployment with two child modules, the
variables file re-opened in truncating mode per module ends up holding
only the LAST module's variable renderings, not the concatenation across
all child modules that the specification describes. -/
theorem C3_truncation_bug :
    varsFileContent c3render c3dep = some "beta:net_\n\n" ∧
    varsFileContentSpec c3render c3dep = "alpha:net_\n\nbeta:net_\n\n" ∧
    varsFileContent c3render c3dep ≠ some (varsFileContentSpec c3render c3dep) :=
  ⟨rfl, rfl, by decide⟩

/-- Claim C4 (code bug): a child-module declaration supplying only `name`
and `source` fails with KeyError('remote_state_inputs') because `create`
reads that key unconditionally, although the model field declares the
default empty tuple; with an explicitly empty `remote_state_inputs` list
the same declaration succeeds with an empty binding tuple and the
discovered `cidr` variable. -/
theorem C4_missing_key_bug :
    childModuleCreate c4Lines emptyStore c4PayloadMissing =
      .error (.keyError "remote_state_inputs") ∧
    (∃ s', childModuleCreate c4Lines emptyStore c4PayloadEmpty =
      .ok (⟨"vpc", "./modules/vpc", [⟨"cidr", none, none⟩], []⟩, s')) :=
  ⟨rfl, ⟨_, rfl⟩⟩

/-- Claim C5 (code bug): template expansion raises
KeyError('deployment_templates') on a document lacking that optional
section; on a document with `deployment_templates: \x7bbase: ...\x7d` and a
deployment entry naming the template, expansion produces the merged entry
(template values overriding the entry's), removes the entry's
`deployment_template` key and drops the top-level section. -/
theorem C5_missing_section_bug :
    expandDeploymentTemplates c5DocMissing =
      .error (.keyError "deployment_templates") ∧
    expandDeploymentTemplates c5DocFull = .ok c5Expected :=
  ⟨rfl, rfl⟩

/-- Claim C6 (confirmed): `get` fails with NotFoundError when no stored
entity matches the single-attribute search, fails with
AmbiguousResultError when more than one matches, and otherwise returns the
unique matching entity. -/
theorem C6_get_spec {α β : Type} [DecidableEq β] (f : α → β) (v : β)
    (records : List α) :
    (filterStore f v records = [] → getStore f v records = .error .notFound) ∧
    (1 < (filterStore f v records).length →
      getStore f v records = .error .ambiguous) ∧
    (∀ x, filterStore f v records = [x] →
      getStore f v records = .ok x ∧ x ∈ records ∧ f x = v) := by
  refine ⟨?_, ?_, ?_⟩
  · intro h
    unfold getStore
    rw [h]
  · intro h
    unfold getStore
    cases hf : filterStore f v records with
    | nil =>
      rw [hf] at h
      simp at h
    | cons x xs =>
      cases xs with
      | nil =>
        rw [hf] at h
        simp at h
      | cons y ys => rfl
  · intro x hx
    have hg : getStore f v records = .ok x := by
      unfold getStore
      rw [hx]
    obtain ⟨hmem, hfx⟩ := getStore_ok f v records x hg
    exact ⟨hg, hmem, hfx⟩

/-- Witness for C6, on the claim's own scenario: `name = "absent"` finds
nothing, two RemoteStates named `x` make `name = "x"` ambiguous, and
`name = "y"` returns the unique match. -/
theorem C6_get_spec_witness :
    getStore RemoteStateModel.name "absent" c6Records = .error .notFound ∧
    getStore RemoteStateModel.name "x" c6Records = .error .ambiguous ∧
    getStore RemoteStateModel.name "y" c6Records = .ok c6rsY :=
  ⟨(C6_get_spec RemoteStateModel.name "absent" c6Records).1 rfl,
   (C6_get_spec RemoteStateModel.name "x" c6Records).2.1 (by decide),
   ((C6_get_spec RemoteStateModel.name "y" c6Records).2.2 c6rsY rfl).1⟩

/-- Claim C7 (confirmed): after any sequence of saves the collection
returned by `get_all` has successive elements non-decreasing under the
type's identity-key ordering, and `get_all` of a type with no created
entity is the empty collection (the defaultdict default), never an absent
value. -/
theorem C7_get_all_ordered {α κ : Type} [DecidableEq α] [LinearOrder κ]
    (key : α → κ) (errOnDuplicate : Bool) (objs : List α) :
    List.Chain' (fun a b => key a ≤ key b)
      (getAll (runSaves key errOnDuplicate objs)) ∧
    getAll (initialRecords α) = [] := by
  refine ⟨?_, rfl⟩
  exact List.Pairwise.chain'
    (pairwise_foldl_saveStep key errOnDuplicate objs (initialRecords α)
      List.Pairwise.nil)

/-- Claim C8 (confirmed): immediately after `DeploymentModel.create`
returns, the deployment's `remote_state_inputs_dict` is exactly the union
of the entries contributed by the bindings of its child modules — every
stored maplet comes from some binding (variable name mapped to that
binding's remote-state and output names), and every binding's variable
name is present.  The embedding computes the mapping once, inside
`create`, mirroring the single `set_remote_state_inputs_dict` call; no
later recomputation exists. -/
theorem C8_inputs_dict (s : Store) (p : DeploymentPayload) (d : DeploymentModel)
    (s' : Store) (h : deploymentCreate s p = .ok (d, s')) :
    (∀ k v, dictLookup d.remote_state_inputs_dict k = some v →
      ∃ cm ∈ d.child_modules, ∃ rsi ∈ cm.remote_states_inputs,
        rsi.var.name = k ∧ v = (rsi.output.remote_state.name, rsi.output.name)) ∧
    (∀ cm ∈ d.child_modules, ∀ rsi ∈ cm.remote_states_inputs,
      (dictLookup d.remote_state_inputs_dict rsi.var.name).isSome = true) := by
  obtain ⟨cms, rss, hc, hd⟩ := deploymentCreate_ok s p d s' h
  subst hd
  constructor
  · intro k v hl
    rcases setDict_sound cms [] k v hl with h0 | hfound
    · cases h0
    · exact hfound
  · intro cm hcm rsi hrsi
    exact setDict_covers cms [] cm hcm rsi hrsi

/-- Witness for C8: in the §8-style scenario, the deployment created over
a store holding the `vpc` module, whose single binding wires `cidr` to
output `vpc_id` of remote state `backbone`, maps `cidr` in its derived
dictionary. -/
theorem C8_inputs_dict_witness :
    (dictLookup c8dep.remote_state_inputs_dict "cidr").isSome = true :=
  (C8_inputs_dict c8Store c8Payload c8dep c8sAfter rfl).2 c8cm (by decide)
    c8rsi (by decide)

/-- Claim C10 counterexample: for two value-different variables sharing
the identity key `x`, the `__lt__` comparison (`self.key <= other.key`)
holds in BOTH directions, so the comparison is not a strict order. -/
theorem C10_counterexample :
    modelLt ChildModuleVarModel.key c10v1 c10v2 = true ∧
    modelLt ChildModuleVarModel.key c10v2 c10v1 = true ∧
    c10v1 ≠ c10v2 :=
  ⟨rfl, rfl, by decide⟩

/-- Claim C10 amended: `__lt__` is asymmetric exactly on entities with
DISTINCT identity keys — for those, `a < b` and `b < a` never both hold;
for equal-key entities both directions hold (it is a total preorder, not a
strict order). -/
theorem C10_lt_amended {α κ : Type} [LinearOrder κ] (key : α → κ) (a b : α)
    (h : key a ≠ key b) :
    ¬(modelLt key a b = true ∧ modelLt key b a = true) := by
  rintro ⟨h1, h2⟩
  unfold modelLt at h1 h2
  exact h (le_antisymm (of_decide_eq_true h1) (of_decide_eq_true h2))

/-- Witness for C10 amended, at variables named `x` and `y`. -/
theorem C10_lt_amended_witness :
    ¬(modelLt ChildModuleVarModel.key c10v1 c10v3 = true ∧
      modelLt ChildModuleVarModel.key c10v3 c10v1 = true) :=
  C10_lt_amended ChildModuleVarModel.key c10v1 c10v3 (by decide)

end Terraframe
